import Mathlib

/-!
Verification development for the StatusMono financial dashboard
(`src/App.jsx`, current top variant, and `src/proxy.js`, current variant).

The JavaScript source is shallowly embedded: JSON/JS values are modelled by
`JVal`, fallible evaluation (property access on `null`/`undefined`, calling
array methods on non-arrays, explicit `throw`) by `Except JsErr`.  Host
(engine-provided) operations that the code calls are modelled by explicit Lean
functions, each documented at its definition:
`Number(...)` by `jsToNumber`, `String(...)` by `jsToString`,
`new Date(...)` (ISO date-only strings, the only format the code constructs)
by `jsDateISO`, `Array.prototype.sort` (stable, ties keep source order) by
`sortE`, `new URL(...).hostname` by `parseHostname`, and `decodeURIComponent`
by `percentDecode`.  `Math.random()` is modelled as an oracle `Nat → Rat`
supplying one independent draw per call site.
-/

/-- A JavaScript value as the embedded code can observe it.  `nan` is kept as
a separate constructor so that numeric coercions can produce it. -/
inductive JVal where
  | undefined : JVal
  | null : JVal
  | bool : Bool → JVal
  | num : Rat → JVal
  | nan : JVal
  | str : String → JVal
  | arr : List JVal → JVal
  | obj : List (String × JVal) → JVal

/-- Errors thrown by the embedded code: `typeError` for member access on
`null`/`undefined` or calling a method that does not exist; `thrown` for an
explicit `throw new Error(msg)`. -/
inductive JsErr where
  | typeError : JsErr
  | thrown : String → JsErr
deriving DecidableEq

/-- `pat` is a prefix of `l`, on character lists. -/
def isPrefixL : List Char → List Char → Bool
  | [], _ => true
  | _ :: _, [] => false
  | a :: as, b :: bs => a = b && isPrefixL as bs

/-- `pat` occurs as a contiguous run inside `l`. -/
def containsSub (pat : List Char) : List Char → Bool
  | [] => pat.isEmpty
  | c :: rest => isPrefixL pat (c :: rest) || containsSub pat rest

/-- `s.startsWith(pat)`. -/
def strStartsWith (s pat : String) : Bool :=
  isPrefixL pat.toList s.toList

/-- `s.endsWith(pat)`. -/
def strEndsWith (s pat : String) : Bool :=
  isPrefixL pat.toList.reverse s.toList.reverse

/-- `s.trimStart()`. -/
def strTrimStart (s : String) : String :=
  String.mk (s.toList.dropWhile Char.isWhitespace)

/-- Whitespace trim on both ends. -/
def strTrim (s : String) : String :=
  String.mk (((s.toList.dropWhile Char.isWhitespace).reverse.dropWhile Char.isWhitespace).reverse)

/-- `s.slice(0, n)`. -/
def strTake (s : String) (n : Nat) : String :=
  String.mk (s.toList.take n)

/-- Split a character list at every occurrence of `sep` (the separator is
dropped; empty runs are kept, like `String.prototype.split`). -/
def splitOnChar (sep : Char) : List Char → List (List Char)
  | [] => [[]]
  | c :: rest =>
    match splitOnChar sep rest with
    | [] => [[]]
    | h :: t => if c = sep then [] :: h :: t else (c :: h) :: t

/-- JS truthiness: `undefined`, `null`, `false`, `0`, `NaN` and `""` are
falsy; every object and array is truthy. -/
def jsTruthy : JVal → Bool
  | .undefined => false
  | .null => false
  | .bool b => b
  | .num q => q != 0
  | .nan => false
  | .str s => s != ""
  | .arr _ => true
  | .obj _ => true

/-- `x ?? y` triggers on exactly `null` and `undefined`. -/
def isNullish : JVal → Bool
  | .undefined => true
  | .null => true
  | _ => false

/-- Property access `v.k`.  Throws `TypeError` on a `null`/`undefined` base;
on plain objects it reads the (first) field of that name, missing fields give
`undefined`; arrays and strings expose `length`; other primitives have no own
properties here. -/
def jsGetProp : JVal → String → Except JsErr JVal
  | .undefined, _ => .error .typeError
  | .null, _ => .error .typeError
  | .obj fields, k => .ok ((fields.lookup k).getD .undefined)
  | .arr l, k => .ok (if k = "length" then .num l.length else .undefined)
  | .str s, k => .ok (if k = "length" then .num s.length else .undefined)
  | _, _ => .ok .undefined

/-- Index access `v[i]` for a numeric index.  Throws on `null`/`undefined`;
arrays give the element or `undefined` past the end; objects look the index up
as a string key; strings give the one-character string. -/
def jsIndex : JVal → Nat → Except JsErr JVal
  | .undefined, _ => .error .typeError
  | .null, _ => .error .typeError
  | .arr l, i => .ok (l.getD i .undefined)
  | .obj fields, i => .ok ((fields.lookup (toString i)).getD .undefined)
  | .str s, i =>
      .ok (match s.toList.getD i ' ', decide (i < s.length) with
           | c, true => .str (String.mk [c])
           | _, false => .undefined)
  | _, _ => .ok .undefined

/-- Digits of a decimal string as a natural number (callers check
`Char.isDigit` first). -/
def digitsToNat (l : List Char) : Nat :=
  l.foldl (fun a c => a * 10 + (c.toNat - 48)) 0

/-- Model of `Number(string)`: leading/trailing whitespace is trimmed, the
empty string is `0`, an optional sign followed by decimal digits with an
optional single point parses as that decimal; anything else (the code never
feeds hex or exponent forms to `Number`) is `NaN` (`none`). -/
def strToNumberOpt (s : String) : Option Rat :=
  let t := (strTrim s).toList
  if t = [] then some 0 else
  let signedBody : Rat × List Char :=
    match t with
    | '-' :: r => (-1, r)
    | '+' :: r => (1, r)
    | r => (1, r)
  let sgn := signedBody.1
  match splitOnChar '.' signedBody.2 with
  | [a] =>
      if a ≠ [] ∧ a.all Char.isDigit then
        some (sgn * (digitsToNat a : Rat))
      else none
  | [a, b] =>
      if (a ≠ [] ∨ b ≠ []) ∧ a.all Char.isDigit ∧ b.all Char.isDigit then
        some (sgn * ((digitsToNat a : Rat) + (digitsToNat b : Rat) / (10 ^ b.length)))
      else none
  | _ => none

/-- Model of the `ToNumber` coercion, with `none` standing for `NaN`.
`Number([])` is `0` and `Number([x])` goes through the single element; other
arrays and all plain objects coerce to `NaN`. -/
def jsToNumberOpt : JVal → Option Rat
  | .undefined => none
  | .null => some 0
  | .bool b => some (if b then 1 else 0)
  | .num q => some q
  | .nan => none
  | .str s => strToNumberOpt s
  | .arr [] => some 0
  | .arr [x] =>
      match x with
      | .num q => some q
      | .str s => strToNumberOpt s
      | .null => some 0
      | .undefined => some 0
      | _ => none
  | .arr _ => none
  | .obj _ => none

/-- `Number(v)` as a JS value (`NaN` when the coercion fails). -/
def jsToNumber (v : JVal) : JVal :=
  match jsToNumberOpt v with
  | some q => .num q
  | none => .nan

/-- Decimal expansion of a fraction `0 ≤ q < 1` with bounded fuel, used to
print non-integer numbers. -/
def fracDigits : Nat → Rat → String
  | 0, _ => ""
  | n + 1, q =>
      if q = 0 then ""
      else
        let q10 := q * 10
        let d := q10.floor
        toString d ++ fracDigits n (q10 - (d : Rat))

/-- Model of JS number-to-string: exact for integers (the only numeric labels
the upstream charts carry); non-integers print a bounded decimal expansion. -/
def ratToJsString (q : Rat) : String :=
  let sgn := if q < 0 then "-" else ""
  let p : Rat := |q|
  let ip : Int := p.floor
  let fp : Rat := p - (ip : Rat)
  sgn ++ toString ip.toNat ++ (if fp = 0 then "" else "." ++ fracDigits 20 fp)

/-- String form of a scalar inside an array join (`null`/`undefined` print
empty there). Nested arrays are outside the shapes the code meets and print
empty. -/
def scalarToJsString : JVal → String
  | .undefined => ""
  | .null => ""
  | .bool b => if b then "true" else "false"
  | .num q => ratToJsString q
  | .nan => "NaN"
  | .str s => s
  | .arr _ => ""
  | .obj _ => "[object Object]"

/-- Model of `String(v)`. -/
def jsToString : JVal → String
  | .undefined => "undefined"
  | .null => "null"
  | .bool b => if b then "true" else "false"
  | .num q => ratToJsString q
  | .nan => "NaN"
  | .str s => s
  | .arr l => String.intercalate "," (l.map scalarToJsString)
  | .obj _ => "[object Object]"

/-- `s.includes(pat)` for strings: `pat` occurs as a substring of `s`. -/
def containsSubstr (s pat : String) : Bool :=
  containsSub pat.toList s.toList

/-- Equality test used by `Array.prototype.includes` when the argument is the
string `pat` (SameValueZero: only an equal string matches). -/
def jvalEqStr : JVal → String → Bool
  | .str s, pat => s = pat
  | _, _ => false

/-- `v.includes(pat)` for a string literal argument: substring test on
strings, membership on arrays; any other receiver has no `includes` method
and throws. -/
def jsIncludes (v : JVal) (pat : String) : Except JsErr Bool :=
  match v with
  | .str s => .ok (containsSubstr s pat)
  | .arr l => .ok (l.any (fun x => jvalEqStr x pat))
  | _ => .error .typeError

/-- `v > bound` where `v` is a JS value: comparisons involving `NaN` (and so
`undefined`) are false. -/
def jsGT (v : JVal) (bound : Rat) : Bool :=
  match jsToNumberOpt v with
  | some r => bound < r
  | none => false

/-- Days in a month of the proleptic Gregorian calendar. -/
def daysInMonth (y : Int) (m : Nat) : Nat :=
  if m = 2 then (if (y % 4 = 0 ∧ y % 100 ≠ 0) ∨ y % 400 = 0 then 29 else 28)
  else if m = 4 ∨ m = 6 ∨ m = 9 ∨ m = 11 then 30 else 31

/-- Days since 1970-01-01 of a civil date (standard era/year-of-era
computation; all intermediate quantities are non-negative for the four-digit
years the code meets). -/
def daysFromCivil (y : Int) (m d : Nat) : Int :=
  let y2 : Int := if m ≤ 2 then y - 1 else y
  let era : Int := (if 0 ≤ y2 then y2 else y2 - 399) / 400
  let yoe : Int := y2 - era * 400
  let mp : Int := ((m : Int) + 9) % 12
  let doy : Int := (153 * mp + 2) / 5 + (d : Int) - 1
  let doe : Int := yoe * 365 + yoe / 4 - yoe / 100 + doy
  era * 146097 + doe - 719468

/-- Model of `new Date(s).getTime()` for the ECMAScript date-time string
format restricted to date-only strings `YYYY-MM-DD` (the only format the
code constructs: it rebuilds `DD/MM/YYYY` into this form).  The result is in
milliseconds since the epoch (`none` = invalid date / `NaN`); strings not of
this exact shape are modelled as invalid. -/
def jsDateISO (s : String) : Option Int :=
  match splitOnChar '-' s.toList with
  | [ys, ms, ds] =>
      if ys.length = 4 ∧ ms.length = 2 ∧ ds.length = 2 ∧
         ys.all Char.isDigit ∧ ms.all Char.isDigit ∧ ds.all Char.isDigit then
        let y : Int := (digitsToNat ys : Int)
        let m : Nat := digitsToNat ms
        let d : Nat := digitsToNat ds
        if 1 ≤ m ∧ m ≤ 12 ∧ 1 ≤ d ∧ d ≤ daysInMonth y m then
          some (daysFromCivil y m d * 86400000)
        else none
      else none
  | _ => none

/-- One chart point as built by `normalizeGenericChartData`:
`{ name: ..., value: Number(...) }`. -/
structure SPoint where
  name : JVal
  value : JVal

/-- One earnings point as built by `normalizeProventos`:
`{ name: ..., value: Number(...), type: ... }`. -/
structure EPoint where
  name : JVal
  value : JVal
  type : JVal

/-- Body of `data.map(item => ...)` in the array branch of
`normalizeGenericChartData`: `name` is `item.date || item.d || item.year`
(the value of the first truthy one, else the value of `item.year`), `value`
is `Number(item.value ?? item.v ?? 0)`. -/
def normArrayItem (item : JVal) : Except JsErr SPoint :=
  match jsGetProp item "date" with
  | .error e => .error e
  | .ok d1 =>
    match (if jsTruthy d1 then .ok d1 else
            match jsGetProp item "d" with
            | .error e => .error e
            | .ok d2 =>
              if jsTruthy d2 then .ok d2 else jsGetProp item "year" : Except JsErr JVal) with
    | .error e => .error e
    | .ok n =>
      match jsGetProp item "value" with
      | .error e => .error e
      | .ok v1 =>
        if isNullish v1 then
          match jsGetProp item "v" with
          | .error e => .error e
          | .ok v2 =>
            .ok { name := n, value := jsToNumber (if isNullish v2 then .num 0 else v2) }
        else .ok { name := n, value := jsToNumber v1 }

/-- `categories.map((cat, index) => ({ name: String(cat), value:
Number(seriesData[index] ?? 0) }))`, with `seriesData` an arbitrary JS value:
the index access throws when `seriesData` is `null`/`undefined` and the
callback runs at least once. -/
def zipSeries (seriesData : JVal) : Nat → List JVal → Except JsErr (List SPoint)
  | _, [] => .ok []
  | i, c :: cs =>
    match jsIndex seriesData i with
    | .error e => .error e
    | .ok v =>
      match zipSeries seriesData (i + 1) cs with
      | .error e => .error e
      | .ok rest =>
        .ok ({ name := .str (jsToString c),
               value := jsToNumber (if isNullish v then .num 0 else v) } :: rest)

/-- The `categories`/`series` branch of `normalizeGenericChartData`
(`src/App.jsx` lines 36-45), including the guard
`data.categories && data.series && data.series.length > 0` with JS
short-circuit evaluation; `categories.map` throws when `categories` is a
truthy non-array. -/
def normCatBranch (data : JVal) : Except JsErr (List SPoint) :=
  match jsGetProp data "categories" with
  | .error e => .error e
  | .ok cats =>
    if jsTruthy cats then
      match jsGetProp data "series" with
      | .error e => .error e
      | .ok ser =>
        if jsTruthy ser then
          match jsGetProp ser "length" with
          | .error e => .error e
          | .ok len =>
            if jsGT len 0 then
              match jsIndex ser 0 with
              | .error e => .error e
              | .ok s0 =>
                match jsGetProp s0 "data" with
                | .error e => .error e
                | .ok seriesData =>
                  match cats with
                  | .arr cs => zipSeries seriesData 0 cs
                  | _ => .error .typeError
            else .ok []
        else .ok []
    else .ok []

/-- `normalizeGenericChartData` (`src/App.jsx` lines 26-46).  A falsy input
returns `[]`; a non-empty array whose first element has a truthy `date` or
`d` field maps the items directly; otherwise the `categories`/`series` branch
runs (for arrays it sees no `categories` property and yields `[]`). -/
def normalizeGenericChartData (data : JVal) : Except JsErr (List SPoint) :=
  if jsTruthy data = false then .ok []
  else
    match data with
    | .arr (e0 :: rest) =>
      (match jsGetProp e0 "date" with
       | .error e => .error e
       | .ok d1 =>
         if jsTruthy d1 then (e0 :: rest).mapM normArrayItem
         else
           match jsGetProp e0 "d" with
           | .error e => .error e
           | .ok d2 =>
             if jsTruthy d2 then (e0 :: rest).mapM normArrayItem
             else normCatBranch (.arr (e0 :: rest)))
    | _ => normCatBranch data

/-- Body of `data.assetEarningsModels.map(item => ...)` in
`normalizeProventos`: `name` is `item.ed || item.pd`, `value` is
`Number(item.v || 0)`, `type` is `item.et`. -/
def provItem (item : JVal) : Except JsErr EPoint :=
  match jsGetProp item "ed" with
  | .error e => .error e
  | .ok ed =>
    match (if jsTruthy ed then .ok ed else jsGetProp item "pd" : Except JsErr JVal) with
    | .error e => .error e
    | .ok n =>
      match jsGetProp item "v" with
      | .error e => .error e
      | .ok v =>
        match jsGetProp item "et" with
        | .error e => .error e
        | .ok t =>
          .ok { name := n, value := jsToNumber (if jsTruthy v then v else .num 0), type := t }

/-- The comparator's helper `parse` (`src/App.jsx` lines 57-62): a falsy date
is `0`; a string with exactly three `/`-separated parts is rebuilt as
`YYYY-MM-DD` and parsed day/month/year; any other string goes through generic
date parsing; the result is `none` for an invalid date (`NaN`).  A truthy
non-string has no `.split` method and throws. -/
def parseDateVal (d : JVal) : Except JsErr (Option Int) :=
  if jsTruthy d = false then .ok (some 0)
  else
    match d with
    | .str s =>
      let parts := splitOnChar '/' s.toList
      if parts.length = 3 then
        .ok (jsDateISO (String.mk (parts.getD 2 [] ++ '-' :: parts.getD 1 [] ++ '-' :: parts.getD 0 [])))
      else .ok (jsDateISO s)
    | _ => .error .typeError

/-- The comparator `(a, b) => parse(a.name) - parse(b.name)`: a difference
involving `NaN` is `NaN`, which the sort treats exactly like `0` (neither
`< 0` nor `> 0`), so it is modelled as `0`. -/
def jsCompare (a b : EPoint) : Except JsErr Int :=
  match parseDateVal a.name with
  | .error e => .error e
  | .ok pa =>
    match parseDateVal b.name with
    | .error e => .error e
    | .ok pb =>
      .ok (match pa, pb with
           | some x, some y => x - y
           | _, _ => 0)

/-- Stable insertion of `x` after every element `y` with
`comparator(y, x) ≤ 0`, propagating comparator exceptions. -/
def insertE (x : EPoint) : List EPoint → Except JsErr (List EPoint)
  | [] => .ok [x]
  | y :: ys =>
    match jsCompare y x with
    | .error e => .error e
    | .ok c =>
      if c ≤ 0 then
        match insertE x ys with
        | .error e => .error e
        | .ok r => .ok (y :: r)
      else .ok (x :: y :: ys)

/-- Left fold inserting each element in turn. -/
def sortFold (acc : List EPoint) : List EPoint → Except JsErr (List EPoint)
  | [] => .ok acc
  | x :: xs =>
    match insertE x acc with
    | .error e => .error e
    | .ok acc2 => sortFold acc2 xs

/-- Model of `Array.prototype.sort(comparator)`: a stable
comparison sort (elements comparing `≤ 0` keep their relative order, ties —
including `NaN` comparator results — keep source order), as ECMAScript
specifies for a consistent comparator. -/
def sortE (l : List EPoint) : Except JsErr (List EPoint) :=
  sortFold [] l

/-- `normalizeProventos` (`src/App.jsx` lines 48-65): returns `[]` when the
payload or its `assetEarningsModels` field is falsy, otherwise maps the
records and sorts them by parsed date. -/
def normalizeProventos (data : JVal) : Except JsErr (List EPoint) :=
  if jsTruthy data = false then .ok []
  else
    match jsGetProp data "assetEarningsModels" with
    | .error e => .error e
    | .ok aem =>
      if jsTruthy aem = false then .ok []
      else
        match aem with
        | .arr items =>
          match items.mapM provItem with
          | .error e => .error e
          | .ok pts => sortE pts
        | _ => .error .typeError

/-- `List.map` with the element index, recursing explicitly so concrete
instances reduce definitionally. -/
def mapWithIdx (f : Nat → α → β) : Nat → List α → List β
  | _, [] => []
  | i, a :: as => f i a :: mapWithIdx f (i + 1) as

/-- The aggregate per-ticker result handed to the UI (`setData` object /
`generateMockData` object): six named series plus `isMock` and `categoria`. -/
structure Snapshot where
  patrimonio : List SPoint
  receitas : List SPoint
  despesas : List SPoint
  caixa : List SPoint
  resultado : List SPoint
  proventos : List EPoint
  isMock : Bool
  categoria : String

/-- The year labels of `generateMockData`. -/
def mockYears : List String := ["2019", "2020", "2021", "2022", "2023", "2024"]

/-- The month labels of `generateMockData`. -/
def mockMonths : List String :=
  ["Jan", "Fev", "Mar", "Abr", "Mai", "Jun", "Jul", "Ago", "Set", "Out", "Nov", "Dez"]

/-- `generateMockData` (`src/App.jsx` lines 68-86).  `Math.random()` is
modelled by the oracle `rand`; each call site consumes a distinct index
(patrimonio 0-5, receitas 6-11, despesas 12-17, caixa 18-23, resultado 24-29,
and two slots per month for the earnings ternary, whose equity branch calls
`Math.random()` twice). -/
def generateMockData (ticker : String) (rand : Nat → Rat) : Snapshot :=
  let isFii : Bool := (ticker.length == 6) && strEndsWith ticker "11"
  { patrimonio := mapWithIdx (fun i y =>
      { name := .str y, value := .num (1000000000 + (i : Rat) * 150000000 + rand i * 50000000) }) 0 mockYears
    receitas := mapWithIdx (fun i y =>
      { name := .str y, value := .num (200000000 + (i : Rat) * 20000000 + rand (6 + i) * 10000000) }) 0 mockYears
    despesas := mapWithIdx (fun i y =>
      { name := .str y, value := .num (150000000 + (i : Rat) * 10000000 + rand (12 + i) * 5000000) }) 0 mockYears
    caixa := mapWithIdx (fun i y =>
      { name := .str y, value := .num (50000000 + rand (18 + i) * 20000000) }) 0 mockYears
    resultado := mapWithIdx (fun i y =>
      { name := .str y, value := .num (50000000 + (i : Rat) * 10000000 + rand (24 + i) * 5000000) }) 0 mockYears
    proventos := mapWithIdx (fun j m =>
      { name := .str m,
        value := .num (if isFii then 4/5 + rand (30 + 2 * j) * (2/5)
                       else if rand (30 + 2 * j) > 7/10 then 3/2 + rand (30 + 2 * j + 1) * 2 else 0),
        type := .str (if isFii then "Rendimento" else "Dividendo") }) 0 mockMonths
    isMock := true
    categoria := if isFii then "FII" else "AÇÃO" }

/-- Category inference from the search result (`src/App.jsx` lines 156-162):
`categoria` starts as `'acoes'`; when the result is a non-empty array, the
first result's `url` (or `''` when falsy) is probed with `includes` for
`'fundos-imobiliarios'`, then `'fiagros'`, then `'acoes'`, first match wins;
no match keeps the default. -/
def inferCategoria (searchData : JVal) : Except JsErr String :=
  match searchData with
  | .arr (e0 :: _) =>
    (match jsGetProp e0 "url" with
     | .error e => .error e
     | .ok u =>
       let urlStr := if jsTruthy u then u else .str ""
       match jsIncludes urlStr "fundos-imobiliarios" with
       | .error e => .error e
       | .ok true => .ok "fii"
       | .ok false =>
         match jsIncludes urlStr "fiagros" with
         | .error e => .error e
         | .ok true => .ok "fiagro"
         | .ok false =>
           match jsIncludes urlStr "acoes" with
           | .error e => .error e
           | .ok _ => .ok "acoes")
  | _ => .ok "acoes"

/-- The six endpoint result slots, already passed through `safeFetch` (which
maps any individual endpoint failure to `null`). -/
structure Slots where
  patrimonio : JVal
  receitas : JVal
  despesas : JVal
  caixa : JVal
  resultado : JVal
  proventos : JVal

/-- The six slots in the order of `[pat, rec, desp, caixa, res, prov]`. -/
def slotsList (s : Slots) : List JVal :=
  [s.patrimonio, s.receitas, s.despesas, s.caixa, s.resultado, s.proventos]

/-- One slot's predicate in the `allNull` check (`src/App.jsx` line 190):
`r === null || (typeof r === 'object' && !Array.isArray(r) &&
Object.keys(r).length === 0)` — note that arrays are explicitly excluded. -/
def isNullOrEmptyObj : JVal → Bool
  | .null => true
  | .obj fields => fields.isEmpty
  | _ => false

/-- `allNull` (`src/App.jsx` line 190). -/
def allNullCheck (s : Slots) : Bool :=
  (slotsList s).all isNullOrEmptyObj

/-- The `try` block of `fetchFinancialData` after the network results are in
(`src/App.jsx` lines 152-202): propagate a search error, infer the category,
throw when `allNull`, otherwise normalize the six slots (any normalizer
exception propagates) and build the real-data snapshot. -/
def pipelineTry (search : Except JsErr JVal) (slots : Slots) : Except JsErr Snapshot :=
  match search with
  | .error e => .error e
  | .ok sd =>
    match inferCategoria sd with
    | .error e => .error e
    | .ok categoria =>
      if allNullCheck slots then .error (.thrown "Todos os endpoints retornaram vazios.")
      else
        match normalizeGenericChartData slots.patrimonio with
        | .error e => .error e
        | .ok pat =>
          match normalizeGenericChartData slots.receitas with
          | .error e => .error e
          | .ok rcts =>
            match normalizeGenericChartData slots.despesas with
            | .error e => .error e
            | .ok dsps =>
              match normalizeGenericChartData slots.caixa with
              | .error e => .error e
              | .ok cx =>
                match normalizeGenericChartData slots.resultado with
                | .error e => .error e
                | .ok rst =>
                  match normalizeProventos slots.proventos with
                  | .error e => .error e
                  | .ok prv =>
                    .ok { patrimonio := pat, receitas := rcts, despesas := dsps,
                          caixa := cx, resultado := rst, proventos := prv,
                          isMock := false,
                          categoria := if categoria = "fii" then "FII"
                                       else if categoria = "fiagro" then "FIAGRO" else "AÇÃO" }

/-- `fetchFinancialData`'s `try`/`catch` (`src/App.jsx` lines 152-213) as a
function of the ticker, the search call's outcome, the six slot results and
the random oracle: any exception in the `try` block falls back to
`generateMockData`. -/
def runPipeline (ticker : String) (search : Except JsErr JVal) (slots : Slots)
    (rand : Nat → Rat) : Snapshot :=
  match pipelineTry search slots with
  | .ok s => s
  | .error _ => generateMockData ticker rand

/-- Hex digit value for percent-decoding. -/
def hexVal (c : Char) : Option Nat :=
  if '0' ≤ c ∧ c ≤ '9' then some (c.toNat - 48)
  else if 'a' ≤ c ∧ c ≤ 'f' then some (c.toNat - 87)
  else if 'A' ≤ c ∧ c ≤ 'F' then some (c.toNat - 55)
  else none

/-- Character-list worker for `percentDecode`. -/
def percentDecodeList : List Char → List Char
  | '%' :: a :: b :: rest =>
    (match hexVal a, hexVal b with
     | some x, some y => Char.ofNat (16 * x + y) :: percentDecodeList rest
     | _, _ => '%' :: percentDecodeList (a :: b :: rest))
  | c :: rest => c :: percentDecodeList rest
  | [] => []

/-- Model of `decodeURIComponent` for single-byte (ASCII) percent escapes,
the ones occurring in the upstream URLs; a `%` not followed by two hex digits
is copied through. -/
def percentDecode (s : String) : String :=
  String.mk (percentDecodeList s.toList)

/-- Split a character list at the first `://`, returning what precedes and
follows it. -/
def splitSchemeRest : List Char → Option (List Char × List Char)
  | [] => none
  | ':' :: '/' :: '/' :: rest => some ([], rest)
  | c :: rest =>
    match splitSchemeRest rest with
    | some (a, b) => some (c :: a, b)
    | none => none

/-- Model of `new URL(u).hostname` for absolute URLs of the
`scheme://[userinfo@]host[:port][/path]` form that the relay receives: the
scheme must be alphanumeric starting with a letter, the authority runs to the
first `/`, `?` or `#`, the host is what follows the last `@` and precedes `:`,
and is lowercased as the URL parser does.  `none` models the constructor
throwing. -/
def parseHostname (u : String) : Option String :=
  match splitSchemeRest u.toList with
  | some (scheme, afterScheme) =>
    if scheme ≠ [] ∧ scheme.all (fun c => c.isAlpha ∨ c.isDigit ∨ c = '+' ∨ c = '-' ∨ c = '.')
       ∧ (scheme.getD 0 '0').isAlpha then
      let authority := afterScheme.takeWhile (fun c => c ≠ '/' ∧ c ≠ '?' ∧ c ≠ '#')
      let hostPort := (splitOnChar '@' authority).getLastD []
      let host := hostPort.takeWhile (fun c => c ≠ ':')
      if host = [] then none else some (String.mk (host.map Char.toLower))
    else none
  | none => none

/-- What the relay handler does strictly before any outbound `fetch`:
either it responds (no network call is made) or it reaches the
`fetch(targetUrl, ...)` call with the given target. -/
inductive PreFetch where
  | respond : Nat → String → PreFetch
  | fetch : String → PreFetch
deriving DecidableEq

/-- The phase of `handler` (`src/proxy.js` lines 3-27) up to the outbound
`fetch`: OPTIONS short-circuits with 200; a missing or empty `url` query
parameter (already percent-decoded by the platform, and used as-is — no
`decodeURIComponent` is applied) gives 400; an unparseable URL gives 400; a
hostname not ending in `statusinvest.com.br` gives 403; otherwise the
handler proceeds to fetch exactly the received `url`. -/
def handlerPreFetch (method : String) (urlParam : Option String) : PreFetch :=
  if method = "OPTIONS" then .respond 200 ""
  else
    match urlParam with
    | none => .respond 400 "Parâmetro \"url\" obrigatório."
    | some url =>
      if url = "" then .respond 400 "Parâmetro \"url\" obrigatório."
      else
        match parseHostname url with
        | none => .respond 400 ("URL inválido: " ++ url)
        | some h =>
          if strEndsWith h "statusinvest.com.br" then .fetch url
          else .respond 403 "Domínio não permitido."

/-- The relay's reply once the upstream response is in: `blocked` is the 503
challenge reply carrying the upstream HTTP status and a body preview,
`invalidJson` the 502 reply with a preview, `success` the 200 reply with the
parsed JSON. -/
inductive RelayResult where
  | blocked : Nat → Nat → String → RelayResult
  | invalidJson : Nat → String → RelayResult
  | success : Nat → JVal → RelayResult

/-- The challenge-detection condition of `handler` (`src/proxy.js` lines
60-65): `!response.ok || contentType.includes('text/html') ||
rawText.trimStart().startsWith('<!') || rawText.trimStart().startsWith('<html')`. -/
def challengeCond (status : Nat) (contentType : Option String) (rawText : String) : Bool :=
  ¬(200 ≤ status ∧ status ≤ 299)
    ∨ containsSubstr (contentType.getD "") "text/html"
    ∨ strStartsWith (strTrimStart rawText) "<!"
    ∨ strStartsWith (strTrimStart rawText) "<html"

/-- The phase of `handler` (`src/proxy.js` lines 51-88) after the upstream
response arrives, parameterized by the host `JSON.parse` (`none` models a
parse exception): read the body once, return the 503 challenge reply when
`challengeCond` holds, otherwise parse — failure is the 502 reply, success
the 200 reply. -/
def handlerPostFetch (jsonParse : String → Option JVal) (status : Nat)
    (contentType : Option String) (rawText : String) : RelayResult :=
  if challengeCond status contentType rawText then
    .blocked 503 status (strTake rawText 200)
  else
    match jsonParse rawText with
    | none => .invalidJson 502 (strTake rawText 200)
    | some d => .success 200 d

/-- `Array.isArray`. -/
def jsIsArray : JVal → Bool
  | .arr _ => true
  | _ => false

/-- A fixed random oracle used to instantiate concrete runs. -/
def rand0 : Nat → Rat := fun _ => 0

/-- C6: a target URL that parses but whose hostname does not end in
`statusinvest.com.br` is answered with the 403 policy rejection, strictly
before the handler reaches its `fetch` call (the result is a `respond`, not a
`fetch`). -/
theorem c6_foreign_host_rejected_before_fetch (u h : String)
    (hparse : parseHostname u = some h)
    (hsuf : strEndsWith h "statusinvest.com.br" = false) :
    handlerPreFetch "GET" (some u) = PreFetch.respond 403 "Domínio não permitido." := by
  have hne : u ≠ "" := by
    intro he
    rw [he] at hparse
    have : parseHostname "" = none := by decide
    rw [this] at hparse
    exact Option.noConfusion hparse
  unfold handlerPreFetch
  rw [if_neg (by decide : ¬("GET" = "OPTIONS"))]
  simp only [if_neg hne, hparse]
  rw [if_neg (by simp [hsuf])]

/-- Witness for C6 at the spec's example hostname `evil.example.com`. -/
theorem c6_witness :
    handlerPreFetch "GET" (some "https://evil.example.com/x")
      = PreFetch.respond 403 "Domínio não permitido." :=
  c6_foreign_host_rejected_before_fetch "https://evil.example.com/x" "evil.example.com"
    (by decide) (by decide)

/-- C7: the relay classifies an upstream response as the 503 blocked /
challenge reply (carrying the upstream status and a 200-character body
preview) exactly when the HTTP status is non-success, or the content-type
contains `text/html`, or the trimmed body starts with `<!` or `<html`; this
holds for every host JSON parser, so in particular a status-200 `text/html`
response is never a success. -/
theorem c7_blocked_iff (jp : String → Option JVal) (status : Nat)
    (ct : Option String) (raw : String) :
    handlerPostFetch jp status ct raw = RelayResult.blocked 503 status (strTake raw 200) ↔
      (¬(200 ≤ status ∧ status ≤ 299)
        ∨ containsSubstr (ct.getD "") "text/html" = true
        ∨ strStartsWith (strTrimStart raw) "<!" = true
        ∨ strStartsWith (strTrimStart raw) "<html" = true) := by
  constructor
  · intro heq
    by_contra hneg
    have hcond : challengeCond status ct raw = false := by
      unfold challengeCond
      exact decide_eq_false hneg
    unfold handlerPostFetch at heq
    rw [hcond] at heq
    simp only [Bool.false_eq_true, if_false] at heq
    cases hjp : jp raw <;> rw [hjp] at heq <;> simp at heq
  · intro h
    have hcond : challengeCond status ct raw = true := by
      unfold challengeCond
      exact decide_eq_true h
    unfold handlerPostFetch
    rw [hcond]
    simp

/-- Witness for C7: a status-200 upstream response with content-type
`text/html` yields the blocked reply, not a success. -/
theorem c7_witness :
    handlerPostFetch (fun _ => none) 200 (some "text/html") "ok"
      = RelayResult.blocked 503 200 "ok" := by
  have h := (c7_blocked_iff (fun _ => none) 200 (some "text/html") "ok").mpr
    (Or.inr (Or.inl (by decide)))
  simpa using h

/-- C8: the relay uses the (platform-decoded) `url` query parameter as-is —
it never applies percent-decoding a second time — so for every accepted
target the URL reaching the `fetch` call is exactly the received parameter,
and whenever the parameter still contains percent escapes the fetched URL is
not its double-decoded corruption. -/
theorem c8_no_double_decode (u h : String)
    (hparse : parseHostname u = some h)
    (hsuf : strEndsWith h "statusinvest.com.br" = true) :
    handlerPreFetch "GET" (some u) = PreFetch.fetch u ∧
      (percentDecode u ≠ u →
        handlerPreFetch "GET" (some u) ≠ PreFetch.fetch (percentDecode u)) := by
  have hne : u ≠ "" := by
    intro he
    rw [he] at hparse
    have : parseHostname "" = none := by decide
    rw [this] at hparse
    exact Option.noConfusion hparse
  have hfetch : handlerPreFetch "GET" (some u) = PreFetch.fetch u := by
    unfold handlerPreFetch
    rw [if_neg (by decide : ¬("GET" = "OPTIONS"))]
    simp only [if_neg hne, hparse]
    rw [if_pos hsuf]
  refine ⟨hfetch, fun hdec hcontra => ?_⟩
  rw [hfetch] at hcontra
  exact hdec (PreFetch.fetch.inj hcontra).symm

/-- Witness for C8: a target containing the escape `%2F` is fetched exactly
as received, and differs from its double-decoded form. -/
theorem c8_witness :
    handlerPreFetch "GET" (some "https://statusinvest.com.br/acoes/get?code=A%2FB")
        = PreFetch.fetch "https://statusinvest.com.br/acoes/get?code=A%2FB" ∧
      handlerPreFetch "GET" (some "https://statusinvest.com.br/acoes/get?code=A%2FB")
        ≠ PreFetch.fetch (percentDecode "https://statusinvest.com.br/acoes/get?code=A%2FB") := by
  have h := c8_no_double_decode "https://statusinvest.com.br/acoes/get?code=A%2FB"
    "statusinvest.com.br" (by decide) (by decide)
  exact ⟨h.1, h.2 (by decide)⟩

/-- The six slots with every endpoint failed (`safeFetch` returned `null`
six times). -/
def slotsAllNull : Slots := ⟨.null, .null, .null, .null, .null, .null⟩

/-- C9: for every ticker and random oracle the synthetic fallback snapshot
has `isMock = true`, exactly 6 yearly points in each of the five monetary
series and exactly 12 monthly earnings points; a ticker of length exactly 6
ending in `11` gets category `FII`, every other ticker `AÇÃO`; and when the
search succeeds with no results and all six endpoint slots are `null`, the
pipeline returns exactly this synthetic snapshot. -/
theorem c9_mock_shape (t : String) (rand : Nat → Rat) :
    (generateMockData t rand).isMock = true ∧
    (generateMockData t rand).patrimonio.length = 6 ∧
    (generateMockData t rand).receitas.length = 6 ∧
    (generateMockData t rand).despesas.length = 6 ∧
    (generateMockData t rand).caixa.length = 6 ∧
    (generateMockData t rand).resultado.length = 6 ∧
    (generateMockData t rand).proventos.length = 12 ∧
    ((t.length = 6 ∧ strEndsWith t "11" = true) →
      (generateMockData t rand).categoria = "FII") ∧
    (¬(t.length = 6 ∧ strEndsWith t "11" = true) →
      (generateMockData t rand).categoria = "AÇÃO") ∧
    runPipeline t (.ok (.arr [])) slotsAllNull rand = generateMockData t rand := by
  refine ⟨rfl, rfl, rfl, rfl, rfl, rfl, rfl, ?_, ?_, rfl⟩
  · rintro ⟨h1, h2⟩
    have hfii : ((t.length == 6) && strEndsWith t "11") = true := by
      rw [Bool.and_eq_true, beq_iff_eq]
      exact ⟨h1, h2⟩
    simp [generateMockData, hfii]
  · intro hn
    have hfii : ((t.length == 6) && strEndsWith t "11") = false := by
      rw [Bool.eq_false_iff]
      intro hc
      rw [Bool.and_eq_true, beq_iff_eq] at hc
      exact hn hc
    simp [generateMockData, hfii]

/-- Witness for C9 at the spec's example `MXRF11` (rule applies) and at
`PETR4` (rule does not). -/
theorem c9_witness :
    (generateMockData "MXRF11" rand0).categoria = "FII" ∧
    (generateMockData "PETR4" rand0).categoria = "AÇÃO" ∧
    (generateMockData "MXRF11" rand0).proventos.length = 12 :=
  ⟨(c9_mock_shape "MXRF11" rand0).2.2.2.2.2.2.2.1 (by constructor <;> decide),
   (c9_mock_shape "PETR4" rand0).2.2.2.2.2.2.2.2.1 (by intro h; exact absurd h.1 (by decide)),
   (c9_mock_shape "MXRF11" rand0).2.2.2.2.2.2.1⟩

/-- C10: `normalizeGenericChartData` decides the array shape by its first
element only: a non-empty array whose element 0 is an object with neither a
`date` nor a `d` field yields `[]` whatever the later elements hold, and the
empty array also yields `[]`. -/
theorem c10_first_element_guard :
    (∀ (fields : List (String × JVal)) (rest : List JVal),
        fields.lookup "date" = none → fields.lookup "d" = none →
        normalizeGenericChartData (.arr (.obj fields :: rest)) = .ok []) ∧
    normalizeGenericChartData (.arr []) = .ok [] := by
  refine ⟨fun fields rest h1 h2 => ?_, rfl⟩
  unfold normalizeGenericChartData
  simp only [jsTruthy, Bool.true_eq_false, if_false, jsGetProp, h1, h2,
    Option.getD_none, normCatBranch]
  rfl

/-- Witness for C10: element 0 lacks `date`/`d`, a later element carries
them, the result is still empty. -/
theorem c10_witness :
    normalizeGenericChartData
        (.arr [.obj [("x", .num 1)], .obj [("date", .str "2020"), ("value", .num 5)]])
      = .ok [] :=
  c10_first_element_guard.1 [("x", .num 1)]
    [.obj [("date", .str "2020"), ("value", .num 5)]] rfl rfl

/-- The output the `categories`/`series` branch actually produces, phrased
from the spec's words: element `i` of the result has label
`String(categories[i])` and value `Number(seriesData[i] ?? 0)`, with absent
indices defaulting to `0` — one element per category. -/
def specZip (ds : List JVal) : Nat → List JVal → List SPoint
  | _, [] => []
  | i, c :: cs =>
    { name := .str (jsToString c),
      value := jsToNumber (if isNullish (ds.getD i .undefined) then .num 0 else ds.getD i .undefined) }
      :: specZip ds (i + 1) cs

/-- A payload of the `categories`/`series` shape with `series[0].data` an
array. -/
def mkCatPayload (cs ds rest : List JVal) : JVal :=
  .obj [("categories", .arr cs), ("series", .arr (.obj [("data", .arr ds)] :: rest))]

theorem zipSeries_arr (ds : List JVal) :
    ∀ (i : Nat) (cs : List JVal), zipSeries (.arr ds) i cs = .ok (specZip ds i cs) := by
  intro i cs
  induction cs generalizing i with
  | nil => rfl
  | cons c cs ih => simp [zipSeries, jsIndex, specZip, ih]

theorem specZip_length (ds : List JVal) :
    ∀ (i : Nat) (cs : List JVal), (specZip ds i cs).length = cs.length := by
  intro i cs
  induction cs generalizing i with
  | nil => rfl
  | cons c cs ih => simp [specZip, ih]

/-- C4 (amended): on a `categories`/`series` payload whose first series
carries a `data` array, `normalizeGenericChartData` maps over the whole
`categories` array — the result's length equals `categories.length` (not the
minimum of the two lengths), with label `String(categories[i])` and value
`Number(seriesData[i] ?? 0)`, absent indices defaulting to `0`. -/
theorem c4_zip_by_categories_length (cs ds rest : List JVal) :
    normalizeGenericChartData (mkCatPayload cs ds rest) = .ok (specZip ds 0 cs) ∧
      (specZip ds 0 cs).length = cs.length := by
  refine ⟨?_, specZip_length ds 0 cs⟩
  have hpos : jsGT (.num ((rest.length + 1 : Nat) : Rat)) 0 = true := by
    simp only [jsGT, jsToNumberOpt, decide_eq_true_eq]
    exact_mod_cast Nat.succ_pos rest.length
  show (if jsGT (.num ((rest.length + 1 : Nat) : Rat)) 0 = true
        then zipSeries (.arr ds) 0 cs else .ok []) = .ok (specZip ds 0 cs)
  rw [if_pos hpos]
  exact zipSeries_arr ds 0 cs

/-- Counterexample for C4 as stated: with 2 categories and 1 data value the
claim demands a sequence of length `min 2 1 = 1`, but the code maps over all
categories and returns 2 points, padding the missing value with 0. -/
theorem c4_counterexample :
    normalizeGenericChartData (mkCatPayload [.str "a", .str "b"] [.num 1] [])
        = .ok [{ name := .str "a", value := .num 1 }, { name := .str "b", value := .num 0 }] ∧
      min (2 : Nat) 1 = 1 ∧
      (normalizeGenericChartData (mkCatPayload [.str "a", .str "b"] [.num 1] [])).toOption.map
          List.length = some 2 :=
  ⟨rfl, rfl, rfl⟩

/-- The degenerate input of C5: a `categories`/`series` object whose first
series element lacks a `data` array. -/
def c5degenerate : JVal :=
  .obj [("categories", .arr [.str "a"]), ("series", .arr [.obj []])]

/-- Counterexample for C5 as stated: on the degenerate input the claim
itself names, the code throws a `TypeError` (`seriesData` is `undefined` and
gets indexed inside the map) instead of returning the empty sequence. -/
theorem c5_counterexample :
    normalizeGenericChartData c5degenerate = .error JsErr.typeError := rfl

/-- C5 (amended): `normalizeGenericChartData` returns `[]` without throwing
for every falsy input (`null`/`undefined` included), for every object
without a `categories` field, and for the empty array; but it is not total —
an object with a non-empty `categories` array and a first series element
lacking a `data` array throws a `TypeError` (see the counterexample), so
totality holds only away from such inputs. -/
theorem c5_safe_on_unrecognized_shapes :
    (∀ v : JVal, jsTruthy v = false → normalizeGenericChartData v = .ok []) ∧
    (∀ fields : List (String × JVal), fields.lookup "categories" = none →
        normalizeGenericChartData (.obj fields) = .ok []) ∧
    normalizeGenericChartData (.arr []) = .ok [] := by
  refine ⟨fun v hv => ?_, fun fields hf => ?_, rfl⟩
  · unfold normalizeGenericChartData
    rw [if_pos hv]
  · unfold normalizeGenericChartData normCatBranch
    simp only [jsTruthy, Bool.true_eq_false, if_false, jsGetProp, hf, Option.getD_none]
    rfl

/-- Witness for C5 at `null` and at an object of unrecognized shape. -/
theorem c5_witness :
    normalizeGenericChartData .null = .ok [] ∧
    normalizeGenericChartData (.obj [("foo", .num 1)]) = .ok [] :=
  ⟨c5_safe_on_unrecognized_shapes.1 .null rfl,
   c5_safe_on_unrecognized_shapes.2.1 [("foo", .num 1)] rfl⟩

theorem emptyish_iff (r : JVal) :
    isNullOrEmptyObj r = true ↔ (r = JVal.null ∨ r = JVal.obj []) := by
  cases r <;> simp [isNullOrEmptyObj]

/-- Six slots that all hold empty arrays. -/
def slotsEmptyArrays : Slots := ⟨.arr [], .arr [], .arr [], .arr [], .arr [], .arr []⟩

/-- Counterexample for C1 as stated: when all six slots hold empty arrays the
claim demands total failure (a synthetic snapshot), but `allNull` explicitly
excludes arrays (`!Array.isArray(r)`), so the pipeline builds a real-data
snapshot with `isMock = false`. -/
theorem c1_counterexample :
    (runPipeline "AAAA3" (.ok (.arr [])) slotsEmptyArrays rand0).isMock = false ∧
      allNullCheck slotsEmptyArrays = false ∧
      isNullOrEmptyObj (.arr []) = false :=
  ⟨rfl, rfl, rfl⟩

/-- C1 (amended): the aggregator declares total failure — and falls back to
the synthetic snapshot — exactly for slots that are `null` or an empty plain
(non-array) object: if all six slots are such, the pipeline returns the
synthetic snapshot; if at least one slot is neither (an empty array
included) and the six normalizations succeed, the snapshot has
`isMock = false`. -/
theorem c1_total_failure_rule (t : String) (sd : JVal) (slots : Slots) (rand : Nat → Rat) :
    ((∀ r ∈ slotsList slots, r = JVal.null ∨ r = JVal.obj []) →
        runPipeline t (.ok sd) slots rand = generateMockData t rand) ∧
    (∀ (c : String) (p1 p2 p3 p4 p5 : List SPoint) (p6 : List EPoint),
        inferCategoria sd = .ok c →
        ¬(∀ r ∈ slotsList slots, r = JVal.null ∨ r = JVal.obj []) →
        normalizeGenericChartData slots.patrimonio = .ok p1 →
        normalizeGenericChartData slots.receitas = .ok p2 →
        normalizeGenericChartData slots.despesas = .ok p3 →
        normalizeGenericChartData slots.caixa = .ok p4 →
        normalizeGenericChartData slots.resultado = .ok p5 →
        normalizeProventos slots.proventos = .ok p6 →
        (runPipeline t (.ok sd) slots rand).isMock = false) := by
  constructor
  · intro h
    have hall : allNullCheck slots = true := by
      rw [allNullCheck, List.all_eq_true]
      intro r hr
      exact (emptyish_iff r).mpr (h r hr)
    unfold runPipeline pipelineTry
    cases hic : inferCategoria sd with
    | error e => simp [hic]
    | ok c => simp [hic, hall]
  · intro c p1 p2 p3 p4 p5 p6 hic hnot hp1 hp2 hp3 hp4 hp5 hp6
    have hall : allNullCheck slots = false := by
      cases hb : allNullCheck slots with
      | false => rfl
      | true =>
        exfalso
        apply hnot
        intro r hr
        rw [allNullCheck, List.all_eq_true] at hb
        exact (emptyish_iff r).mp (hb r hr)
    unfold runPipeline pipelineTry
    simp [hic, hall, hp1, hp2, hp3, hp4, hp5, hp6]

/-- Witness for C1: all-`null` slots produce the synthetic snapshot; slots
with one empty array and five `null`s produce a real-data snapshot. -/
theorem c1_witness :
    runPipeline "AAAA3" (.ok (.arr [])) slotsAllNull rand0 = generateMockData "AAAA3" rand0 ∧
    (runPipeline "AAAA3" (.ok (.arr []))
        ⟨.arr [], .null, .null, .null, .null, .null⟩ rand0).isMock = false := by
  constructor
  · exact (c1_total_failure_rule "AAAA3" (.arr []) slotsAllNull rand0).1
      (by intro r hr; fin_cases hr <;> exact Or.inl rfl)
  · exact (c1_total_failure_rule "AAAA3" (.arr [])
        ⟨.arr [], .null, .null, .null, .null, .null⟩ rand0).2 "acoes" [] [] [] [] [] []
      rfl
      (by
        intro hforall
        have := hforall (.arr []) (by simp [slotsList])
        rcases this with h | h <;> exact JVal.noConfusion h)
      rfl rfl rfl rfl rfl rfl

/-- Six slots holding plausibly non-empty data (one real-looking series). -/
def slotsGood : Slots :=
  ⟨.obj [("categories", .arr [.str "2023"]), ("series", .arr [.obj [("data", .arr [.num 7])]])],
   .null, .null, .null, .null, .null⟩

/-- Counterexample for C2 as stated: when the search / relay call for
classification fails, the claim demands the default Equity category with
real-data aggregation proceeding (`isSynthetic = false`), but the thrown
error escapes to the `catch` and the whole pipeline falls back to the
synthetic snapshot (`isMock = true`) even though usable slots exist. -/
theorem c2_counterexample :
    (runPipeline "PETR4" (.error (.thrown "HTTP 500")) slotsGood rand0).isMock = true ∧
      allNullCheck slotsGood = false :=
  ⟨rfl, rfl⟩

/-- C2 (amended): when the search call succeeds, classification never throws
a category error and always yields one of the three enumerated categories,
defaulting to `'acoes'` on an empty result set, on a non-array result, and
when no substring matches; but a failing search call propagates out of
classification and sends the whole pipeline to the synthetic fallback. -/
theorem c2_classifier_default (sd : JVal) :
    (∀ c : String, inferCategoria sd = .ok c → (c = "acoes" ∨ c = "fii" ∨ c = "fiagro")) ∧
    (jsIsArray sd = false → inferCategoria sd = .ok "acoes") ∧
    inferCategoria (.arr []) = .ok "acoes" ∧
    (∀ (s : String) (rest : List JVal),
        containsSubstr s "fundos-imobiliarios" = false →
        containsSubstr s "fiagros" = false →
        inferCategoria (.arr (.obj [("url", .str s)] :: rest)) = .ok "acoes") ∧
    (∀ (t : String) (slots : Slots) (rand : Nat → Rat) (e : JsErr),
        runPipeline t (.error e) slots rand = generateMockData t rand) := by
  refine ⟨?_, ?_, rfl, ?_, ?_⟩
  · intro c h
    match sd with
    | .undefined | .null | .bool _ | .num _ | .nan | .str _ | .obj _ =>
      exact Or.inl (Except.ok.inj h).symm
    | .arr [] => exact Or.inl (Except.ok.inj h).symm
    | .arr (e0 :: rest) =>
      simp only [inferCategoria] at h
      split at h
      · exact Except.noConfusion h
      · split at h
        · exact Except.noConfusion h
        · exact Or.inr (Or.inl (Except.ok.inj h).symm)
        · split at h
          · exact Except.noConfusion h
          · exact Or.inr (Or.inr (Except.ok.inj h).symm)
          · split at h
            · exact Except.noConfusion h
            · exact Or.inl (Except.ok.inj h).symm
  · intro hna
    match sd with
    | .undefined | .null | .bool _ | .num _ | .nan | .str _ | .obj _ => rfl
    | .arr l => exact Bool.noConfusion hna
  · intro s rest h1 h2
    by_cases hs : s = ""
    · subst hs; rfl
    · have htr : jsTruthy (.str s) = true := by
        simp [jsTruthy]
        exact hs
      simp [inferCategoria, jsGetProp, jsIncludes, htr, h1, h2]
  · intro t slots rand e
    rfl

/-- Witness for C2: a non-array search result and a no-match URL both give
the default category, and a failed search call sends the pipeline to the
synthetic snapshot. -/
theorem c2_witness :
    inferCategoria (.str "x") = .ok "acoes" ∧
    inferCategoria (.arr [.obj [("url", .str "/weird/path")]]) = .ok "acoes" ∧
    runPipeline "PETR4" (.error .typeError) slotsAllNull rand0
      = generateMockData "PETR4" rand0 :=
  ⟨(c2_classifier_default (.str "x")).2.1 rfl,
   (c2_classifier_default (.arr [.obj [("url", .str "/weird/path")]])).2.2.2.1
     "/weird/path" [] (by decide) (by decide),
   (c2_classifier_default .undefined).2.2.2.2 "PETR4" slotsAllNull rand0 .typeError⟩

/-- The sort key of an earnings point: `some k` when the comparator's
`parse` yields a valid timestamp, `none` when it yields `NaN` or throws. -/
def keyOf (p : EPoint) : Option Int :=
  match parseDateVal p.name with
  | .ok (some k) => some k
  | _ => none

/-- The key with the invalid case defaulted (only used under `keyOf`
being `some`). -/
def keyD (p : EPoint) : Int := (keyOf p).getD 0

/-- The chronological order of the amended C3. -/
def keyLE (a b : EPoint) : Prop := keyD a ≤ keyD b

theorem parse_of_goodKey (p : EPoint) (h : (keyOf p).isSome = true) :
    parseDateVal p.name = .ok (some (keyD p)) := by
  unfold keyD keyOf
  unfold keyOf at h
  cases hp : parseDateVal p.name with
  | error e => rw [hp] at h; simp at h
  | ok o =>
    cases o with
    | none => rw [hp] at h; simp at h
    | some k => rfl

theorem jsCompare_good (a b : EPoint) (ha : (keyOf a).isSome = true)
    (hb : (keyOf b).isSome = true) :
    jsCompare a b = .ok (keyD a - keyD b) := by
  unfold jsCompare
  rw [parse_of_goodKey a ha, parse_of_goodKey b hb]

/-- Pure form of the stable insertion once all keys are valid. -/
def insertPure (x : EPoint) : List EPoint → List EPoint
  | [] => [x]
  | y :: ys => if keyD y ≤ keyD x then y :: insertPure x ys else x :: y :: ys

theorem insertE_eq_pure (x : EPoint) (hx : (keyOf x).isSome = true) :
    ∀ acc : List EPoint, (∀ p ∈ acc, (keyOf p).isSome = true) →
      insertE x acc = .ok (insertPure x acc) := by
  intro acc
  induction acc with
  | nil => intro _; rfl
  | cons y ys ih =>
    intro h
    have hy : (keyOf y).isSome = true := h y (List.mem_cons_self y ys)
    have hys : ∀ p ∈ ys, (keyOf p).isSome = true :=
      fun p hp => h p (List.mem_cons_of_mem y hp)
    simp only [insertE, jsCompare_good y x hy hx, insertPure]
    by_cases hle : keyD y ≤ keyD x
    · rw [if_pos (sub_nonpos.mpr hle), if_pos hle, ih hys]
    · rw [if_neg (fun hc => hle (sub_nonpos.mp hc)), if_neg hle]

theorem insertPure_perm (x : EPoint) :
    ∀ l : List EPoint, (insertPure x l).Perm (x :: l) := by
  intro l
  induction l with
  | nil => exact List.Perm.refl _
  | cons y ys ih =>
    by_cases hc : keyD y ≤ keyD x
    · simp only [insertPure, if_pos hc]
      exact (ih.cons y).trans (List.Perm.swap x y ys)
    · simp only [insertPure, if_neg hc]
      exact List.Perm.refl _

theorem insertPure_mem {x z : EPoint} {l : List EPoint} (hz : z ∈ insertPure x l) :
    z = x ∨ z ∈ l := by
  have := (insertPure_perm x l).mem_iff.mp hz
  simpa using this

theorem insertPure_sorted (x : EPoint) :
    ∀ l : List EPoint, l.Pairwise keyLE → (insertPure x l).Pairwise keyLE := by
  intro l
  induction l with
  | nil => intro _; simp [insertPure]
  | cons y ys ih =>
    intro hp
    rcases List.pairwise_cons.mp hp with ⟨hy, hys⟩
    by_cases hc : keyD y ≤ keyD x
    · simp only [insertPure, if_pos hc]
      refine List.pairwise_cons.mpr ⟨?_, ih hys⟩
      intro z hz
      rcases insertPure_mem hz with rfl | hz2
      · exact hc
      · exact hy z hz2
    · simp only [insertPure, if_neg hc]
      push_neg at hc
      refine List.pairwise_cons.mpr ⟨?_, hp⟩
      intro z hz
      rcases List.mem_cons.mp hz with rfl | hz2
      · exact le_of_lt hc
      · exact le_trans (le_of_lt hc) (hy z hz2)

theorem sortFold_ok :
    ∀ (l acc : List EPoint),
      (∀ p ∈ l, (keyOf p).isSome = true) →
      (∀ p ∈ acc, (keyOf p).isSome = true) →
      acc.Pairwise keyLE →
      ∃ r, sortFold acc l = .ok r ∧ r.Perm (acc ++ l) ∧ r.Pairwise keyLE := by
  intro l
  induction l with
  | nil =>
    intro acc _ _ hs
    exact ⟨acc, rfl, by simp, hs⟩
  | cons x xs ih =>
    intro acc hl hacc hs
    have hx : (keyOf x).isSome = true := hl x (List.mem_cons_self x xs)
    have hxs : ∀ p ∈ xs, (keyOf p).isSome = true :=
      fun p hp => hl p (List.mem_cons_of_mem x hp)
    have hins := insertE_eq_pure x hx acc hacc
    have hacc2 : ∀ p ∈ insertPure x acc, (keyOf p).isSome = true := by
      intro p hp
      rcases insertPure_mem hp with rfl | hp2
      · exact hx
      · exact hacc p hp2
    obtain ⟨r, hr, hperm, hsort⟩ := ih (insertPure x acc) hxs hacc2 (insertPure_sorted x acc hs)
    refine ⟨r, ?_, ?_, hsort⟩
    · simp only [sortFold, hins, hr]
    · exact hperm.trans
        (((insertPure_perm x acc).append_right xs).trans List.perm_middle.symm)

/-- An earnings payload with the given records. -/
def mkProvPayload (items : List JVal) : JVal :=
  .obj [("assetEarningsModels", .arr items)]

/-- The spec's three-record example, in source order. -/
def c3specItems : List JVal :=
  [.obj [("ed", .str "01/03/2023"), ("v", .num 1)],
   .obj [("ed", .str "15/01/2023"), ("v", .num 2)],
   .obj [("ed", .str "20/12/2022"), ("v", .num 3)]]

/-- The mapped points of `c3specItems` before sorting. -/
def c3specPts : List EPoint :=
  [{ name := .str "01/03/2023", value := .num 1, type := .undefined },
   { name := .str "15/01/2023", value := .num 2, type := .undefined },
   { name := .str "20/12/2022", value := .num 3, type := .undefined }]

/-- The spec's expected chronological order. -/
def c3specSorted : List EPoint :=
  [{ name := .str "20/12/2022", value := .num 3, type := .undefined },
   { name := .str "15/01/2023", value := .num 2, type := .undefined },
   { name := .str "01/03/2023", value := .num 1, type := .undefined }]

/-- C3 (amended): whenever the record map succeeds and every parsed date is
valid (dates in `DD/MM/YYYY` form parse as day/month/year; missing/empty
dates parse as epoch zero), `normalizeProventos` returns a permutation of
the records sorted ascending by parsed date without raising; and on the
spec's example dates `01/03/2023`, `15/01/2023`, `20/12/2022` the output is
exactly `20/12/2022, 15/01/2023, 01/03/2023`.  (A malformed non-empty date,
by contrast, parses as `NaN`, which ties with everything and leaves the
record in place — see the counterexample.) -/
theorem c3_sorted_by_parsed_date :
    (∀ (items : List JVal) (pts : List EPoint),
        items.mapM provItem = .ok pts →
        (∀ p ∈ pts, (keyOf p).isSome = true) →
        ∃ r, normalizeProventos (mkProvPayload items) = .ok r ∧
          r.Perm pts ∧ r.Pairwise keyLE) ∧
    normalizeProventos (mkProvPayload c3specItems) = .ok c3specSorted := by
  constructor
  · intro items pts hmap hkeys
    obtain ⟨r, hr, hperm, hsort⟩ := sortFold_ok pts [] hkeys (by simp) (by simp)
    refine ⟨r, ?_, by simpa using hperm, hsort⟩
    show (match items.mapM provItem with
          | .error e => Except.error e
          | .ok pts => sortE pts) = .ok r
    rw [hmap]
    exact hr
  · rfl

/-- Counterexample for C3 as stated: a malformed non-empty date does not
sort as epoch zero — `parse` yields an invalid date (`NaN`), every
comparison against it is a tie, and the record keeps its source position
(here: last), whereas sorting it as epoch zero would place it strictly
before the valid 2023 date. -/
theorem c3_counterexample :
    normalizeProventos (mkProvPayload
        [.obj [("ed", .str "15/01/2023"), ("v", .num 1)],
         .obj [("ed", .str "aa/bb/cccc"), ("v", .num 2)]])
      = .ok [{ name := .str "15/01/2023", value := .num 1, type := .undefined },
             { name := .str "aa/bb/cccc", value := .num 2, type := .undefined }] ∧
    parseDateVal (.str "aa/bb/cccc") = .ok none ∧
    parseDateVal (.str "15/01/2023") = .ok (some 1673740800000) ∧
    (0 : Int) < 1673740800000 :=
  ⟨rfl, rfl, rfl, by decide⟩

/-- Witness for C3 at the spec's example records. -/
theorem c3_witness :
    ∃ r, normalizeProventos (mkProvPayload c3specItems) = .ok r ∧
      r.Perm c3specPts ∧ r.Pairwise keyLE :=
  c3_sorted_by_parsed_date.1 c3specItems c3specPts rfl
    (by
      intro p hp
      simp only [c3specPts, List.mem_cons, List.not_mem_nil, or_false] at hp
      rcases hp with rfl | rfl | rfl <;> rfl)
